import Mathlib

/-!
# Verification of the `auth` package of `learngo_httpserver`

Shallow embedding of the authentication primitives of the repository's
`auth` package (`HashPassword`, `CheckPasswordHash`, `MakeJWT`,
`ValidateJWT`, `GetBearerToken`, `MakeRefreshToken`) together with the
behaviour of the library functions they call (`encoding/hex`,
`github.com/google/uuid`, `github.com/golang-jwt/jwt/v5`,
`golang.org/x/crypto/bcrypt`, `crypto/rand`).

Modelling conventions:
* Go strings are modelled as `List Char`.  All string constants that the
  code compares against are ASCII, where Go's byte indexing and the
  character-level model coincide; the observable results agree on every
  input (a non-ASCII prefix fails both the byte-level and the
  character-level comparison).
* Wall-clock time is an integer number of time units (`Int`); `time.Now()`
  becomes an explicit parameter threaded through the functions.
* Randomness (`crypto/rand.Read`, bcrypt's salt) becomes an explicit
  parameter describing the outcome of the draw.
* The cryptographic cores (HMAC-SHA256, bcrypt's blowfish-based digest)
  are modelled as ideal (injective, collision-free) primitives, the
  standard symbolic treatment; everything surrounding them — input
  preparation, length limits, comparison and control flow — follows the
  library sources.
-/

namespace LearnGoHttpServer

/-- A Go string, viewed as its sequence of characters. -/
abbrev GoStr := List Char

/-! ## `encoding/hex`

`hex.EncodeToString` writes, for every input byte `v`, the two characters
`hextable[v>>4]` and `hextable[v&0x0f]` where
`hextable = "0123456789abcdef"` (Go `encoding/hex` package). -/

/-- The Go `encoding/hex` digit table `"0123456789abcdef"`. -/
def hextable : List Char := "0123456789abcdef".data

/-- The two hex characters Go's `hex.Encode` emits for one byte `b`:
`hextable[b>>4]` and `hextable[b&0x0f]` (for `b < 256`, `b >>> 4 = b / 16`
and `b &&& 15 = b % 16`). -/
def hexPair (b : Nat) : List Char :=
  [hextable.getD (b / 16) ' ', hextable.getD (b % 16) ' ']

/-- `hex.EncodeToString`: concatenation of the `hexPair`s of the bytes. -/
def hexEncodeToString (bs : List Nat) : GoStr :=
  (bs.map hexPair).flatten

/-! ## `GetBearerToken`

```go
func GetBearerToken(headers http.Header) (string, error) {
    if len(headers["Authorization"]) == 0 {
        return "", fmt.Errorf("missing authorization header")
    }
    authHeader := headers["Authorization"][0]
    if len(authHeader) < 7 || authHeader[:7] != "Bearer " {
        return "", fmt.Errorf("invalid authorization header")
    }
    return authHeader[7:], nil
}
```

The function only touches the slice of values stored under the
`"Authorization"` key, so the embedding takes that slice directly. -/

/-- `GetBearerToken`, on the list of `Authorization` header values. -/
def GetBearerToken (authValues : List GoStr) : Except String GoStr :=
  match authValues with
  | [] => .error "missing authorization header"
  | authHeader :: _ =>
    if authHeader.length < 7 ∨ authHeader.take 7 ≠ "Bearer ".data then
      .error "invalid authorization header"
    else
      .ok (authHeader.drop 7)

/-! ## `MakeRefreshToken`

```go
func MakeRefreshToken() (string, error) {
    b := make([]byte, 32)
    n, err := rand.Read(b)
    if err != nil {
        return "", err
    }
    if n != len(b) {
        return "", fmt.Errorf("expected to read %d bytes, got %d", len(b), n)
    }
    return hex.EncodeToString(b), nil
}
```

The outcome of `crypto/rand.Read(b)` is modelled explicitly: the contents
of the 32-byte buffer after the call, the reported count `n` and the
reported error. -/

/-- Outcome of one `rand.Read` call on the 32-byte buffer: the buffer's
contents after the call, the byte count returned, and the error returned. -/
structure RandRead where
  bytes : List Nat
  n : Nat
  err : Option String

/-- `MakeRefreshToken`, parameterised by the outcome of `rand.Read`. -/
def MakeRefreshToken (r : RandRead) : Except String GoStr :=
  match r.err with
  | some e => .error e
  | none =>
    if r.n ≠ 32 then
      .error ("expected to read 32 bytes, got " ++ toString r.n)
    else
      .ok (hexEncodeToString r.bytes)

/-! ## `github.com/google/uuid`

`uuid.UUID` is `[16]byte`.  `UUID.String` hex-encodes the 16 bytes in
lower case with dashes after bytes 3, 5, 7 and 9 (`encodeHex`).
`uuid.Parse` accepts the 36-character dashed form, a 45-character
`urn:uuid:`-prefixed form (prefix compared case-insensitively), a
38-character braced form (of which only characters 1..36 are inspected —
the closing brace is never checked), and a 32-character undashed form;
any other length is rejected.  `xtob` converts two hex characters to a
byte using the `xvalues` table (`255` marks an invalid character). -/

/-- `uuid.UUID`: an array of 16 bytes. -/
structure UUID where
  b0 : Nat
  b1 : Nat
  b2 : Nat
  b3 : Nat
  b4 : Nat
  b5 : Nat
  b6 : Nat
  b7 : Nat
  b8 : Nat
  b9 : Nat
  b10 : Nat
  b11 : Nat
  b12 : Nat
  b13 : Nat
  b14 : Nat
  b15 : Nat
deriving DecidableEq, Repr

/-- Every field of the byte array is an actual byte. -/
def UUID.WF (u : UUID) : Prop :=
  u.b0 < 256 ∧ u.b1 < 256 ∧ u.b2 < 256 ∧ u.b3 < 256 ∧
  u.b4 < 256 ∧ u.b5 < 256 ∧ u.b6 < 256 ∧ u.b7 < 256 ∧
  u.b8 < 256 ∧ u.b9 < 256 ∧ u.b10 < 256 ∧ u.b11 < 256 ∧
  u.b12 < 256 ∧ u.b13 < 256 ∧ u.b14 < 256 ∧ u.b15 < 256

instance (u : UUID) : Decidable u.WF := by unfold UUID.WF; infer_instance

/-- `UUID.String()`: lower-case hex of the 16 bytes, dashed 8-4-4-4-12. -/
def UUID.toGoString (u : UUID) : GoStr :=
  hexPair u.b0 ++ hexPair u.b1 ++ hexPair u.b2 ++ hexPair u.b3 ++
  ['-'] ++ hexPair u.b4 ++ hexPair u.b5 ++
  ['-'] ++ hexPair u.b6 ++ hexPair u.b7 ++
  ['-'] ++ hexPair u.b8 ++ hexPair u.b9 ++
  ['-'] ++ hexPair u.b10 ++ hexPair u.b11 ++ hexPair u.b12 ++
  hexPair u.b13 ++ hexPair u.b14 ++ hexPair u.b15

/-- The `xvalues` table of `github.com/google/uuid`: hex digit value of a
character, `255` if the character is not a hex digit. -/
def xvalues (c : Char) : Nat :=
  if '0' ≤ c ∧ c ≤ '9' then c.toNat - '0'.toNat
  else if 'a' ≤ c ∧ c ≤ 'f' then c.toNat - 'a'.toNat + 10
  else if 'A' ≤ c ∧ c ≤ 'F' then c.toNat - 'A'.toNat + 10
  else 255

/-- `xtob(x1, x2)`: the byte `(b1<<4)|b2` when both characters are hex
digits (in which case it equals `b1*16 + b2`), `none` otherwise. -/
def xtob (x1 x2 : Char) : Option Nat :=
  if xvalues x1 ≠ 255 ∧ xvalues x2 ≠ 255 then
    some (xvalues x1 * 16 + xvalues x2)
  else
    none

/-- The body of `uuid.Parse` shared by the dashed branches: on a
36-character string, check the dashes at indices 8, 13, 18 and 23 and
read the 16 hex pairs at indices 0,2,4,6,9,11,14,16,19,21,24,26,28,30,32,34. -/
def parseDashed : GoStr → Except String UUID
  | x0 :: x1 :: x2 :: x3 :: x4 :: x5 :: x6 :: x7 :: d0 ::
    x8 :: x9 :: x10 :: x11 :: d1 ::
    x12 :: x13 :: x14 :: x15 :: d2 ::
    x16 :: x17 :: x18 :: x19 :: d3 ::
    x20 :: x21 :: x22 :: x23 :: x24 :: x25 :: x26 :: x27 :: x28 :: x29 :: x30 :: x31 :: [] =>
    if d0 = '-' ∧ d1 = '-' ∧ d2 = '-' ∧ d3 = '-' then
      match xtob x0 x1, xtob x2 x3, xtob x4 x5, xtob x6 x7,
            xtob x8 x9, xtob x10 x11, xtob x12 x13, xtob x14 x15,
            xtob x16 x17, xtob x18 x19, xtob x20 x21, xtob x22 x23,
            xtob x24 x25, xtob x26 x27, xtob x28 x29, xtob x30 x31 with
      | some v0, some v1, some v2, some v3, some v4, some v5, some v6,
        some v7, some v8, some v9, some v10, some v11, some v12, some v13,
        some v14, some v15 =>
        .ok ⟨v0, v1, v2, v3, v4, v5, v6, v7, v8, v9, v10, v11, v12, v13, v14, v15⟩
      | _, _, _, _, _, _, _, _, _, _, _, _, _, _, _, _ =>
        .error "invalid UUID format"
    else .error "invalid UUID format"
  | _ => .error "invalid UUID format"

/-- The 32-character undashed branch of `uuid.Parse`: 16 consecutive hex
pairs. -/
def parseUndashed : GoStr → Except String UUID
  | [x0, x1, x2, x3, x4, x5, x6, x7,
     x8, x9, x10, x11, x12, x13, x14, x15,
     x16, x17, x18, x19, x20, x21, x22, x23,
     x24, x25, x26, x27, x28, x29, x30, x31] =>
    match xtob x0 x1, xtob x2 x3, xtob x4 x5, xtob x6 x7,
          xtob x8 x9, xtob x10 x11, xtob x12 x13, xtob x14 x15,
          xtob x16 x17, xtob x18 x19, xtob x20 x21, xtob x22 x23,
          xtob x24 x25, xtob x26 x27, xtob x28 x29, xtob x30 x31 with
    | some v0, some v1, some v2, some v3, some v4, some v5, some v6,
      some v7, some v8, some v9, some v10, some v11, some v12, some v13,
      some v14, some v15 =>
      .ok ⟨v0, v1, v2, v3, v4, v5, v6, v7, v8, v9, v10, v11, v12, v13, v14, v15⟩
    | _, _, _, _, _, _, _, _, _, _, _, _, _, _, _, _ =>
      .error "invalid UUID format"
  | _ => .error "invalid UUID format"

/-- ASCII lower-casing, the fragment of `strings.EqualFold`'s simple case
folding relevant to the all-ASCII reference string `"urn:uuid:"`. -/
def asciiLower (c : Char) : Char :=
  if 'A' ≤ c ∧ c ≤ 'Z' then Char.ofNat (c.toNat + 32) else c

/-- `uuid.Parse`. -/
def uuidParse (s : GoStr) : Except String UUID :=
  if s.length = 36 then parseDashed s
  else if s.length = 45 then
    if (s.take 9).map asciiLower = "urn:uuid:".data then parseDashed (s.drop 9)
    else .error "invalid urn prefix"
  else if s.length = 38 then
    -- the source drops the leading brace and inspects only the first 36
    -- characters of the remaining 37 (the trailing character is unchecked)
    parseDashed ((s.drop 1).take 36)
  else if s.length = 32 then parseUndashed s
  else .error ("invalid UUID length: " ++ toString s.length)

/-! ## `github.com/golang-jwt/jwt/v5` and `MakeJWT` / `ValidateJWT`

```go
func MakeJWT(userID uuid.UUID, tokenSecret string, expiresIn time.Duration) (string, error) {
    claims := jwt.RegisteredClaims{
        Subject:   userID.String(),
        ExpiresAt: jwt.NewNumericDate(time.Now().Add(expiresIn)),
        IssuedAt:  jwt.NewNumericDate(time.Now()),
        Issuer:    "chirpy",
    }
    token := jwt.NewWithClaims(jwt.SigningMethodHS256, claims)
    return token.SignedString([]byte(tokenSecret))
}

func ValidateJWT(tokenString, tokenSecret string) (uuid.UUID, error) {
    claims := &jwt.RegisteredClaims{}
    token, err := jwt.ParseWithClaims(tokenString, claims, func(token *jwt.Token) (any, error) {
        return []byte(tokenSecret), nil
    })
    if err != nil {
        return uuid.Nil, err
    }
    if !token.Valid {
        return uuid.Nil, fmt.Errorf("invalid token")
    } else if claims.ExpiresAt.Time.Before(time.Now()) {
        return uuid.Nil, fmt.Errorf("token expired")
    }
    userID, err := uuid.Parse(claims.Subject)
    if err != nil {
        return uuid.Nil, err
    }
    return userID, nil
}
```

The time parameters of the claims are integers ("NumericDate" time units);
`time.Now()` becomes an explicit parameter (the two consecutive `time.Now()`
calls inside `MakeJWT` are modelled as one instant).  A serialized token is
either the injective serialization of an HS256 header, a claim set and a
signature, or any other string (`Token.malformed`); HMAC-SHA256 is modelled
as an ideal MAC, so a signature value is determined exactly by the signing
key and the signed content, and signature verification compares the token's
signature with the recomputed MAC of its own header/claims under the
verifier's key.

`jwt.ParseWithClaims` (v5, default parser, the key function always
returning the secret) proceeds: structural decoding (fails with
`ErrTokenMalformed`), signature verification (fails with
`ErrTokenSignatureInvalid`), then claim validation with the default
validator — zero leeway, `exp` and `nbf` optional, the `iat` check
disabled — which collects an `ErrTokenExpired` when the current time is
not before `exp` and an `ErrTokenNotValidYet` when the current time is
before `nbf`, joined into an `ErrTokenInvalidClaims` error.  On a nil
error the returned `token.Valid` is always `true` (it is set just before
the successful return), so the `!token.Valid` branch of `ValidateJWT`
returns only on the error paths already covered. -/

/-- `jwt.RegisteredClaims` restricted to the fields this program writes or
the default validator reads (`Audience` and `ID` are never set and never
validated by the default validator). `none` models an absent claim
(`omitempty`). -/
structure RegisteredClaims where
  issuer : GoStr
  subject : GoStr
  expiresAt : Option Int
  notBefore : Option Int
  issuedAt : Option Int
deriving DecidableEq, Repr

/-- An HMAC-SHA256 tag, modelled as an ideal MAC: the tag is determined by
(and determines) the key and the signing input, the latter itself an
injective serialization of the claim set. -/
structure HS256Sig where
  key : GoStr
  signedClaims : RegisteredClaims
deriving DecidableEq, Repr

/-- The ideal MAC: `HMAC-SHA256(key, signingString(claims))`. -/
def hmacSHA256 (key : GoStr) (c : RegisteredClaims) : HS256Sig := ⟨key, c⟩

/-- The universe of token strings handed to `ValidateJWT`: either a
structurally well-formed HS256 token (a claim set together with the
signature bytes carried by the third segment) or any other string. -/
inductive Token where
  | hs256 (claims : RegisteredClaims) (sig : HS256Sig)
  | malformed (raw : GoStr)
deriving DecidableEq, Repr

/-- The claim-validation errors of the jwt/v5 default validator relevant
to this claim set. -/
inductive ClaimError where
  | expired
  | notValidYet
deriving DecidableEq, Repr

/-- The jwt/v5 parse-level errors relevant here. -/
inductive JWTError where
  | tokenMalformed
  | signatureInvalid
  | invalidClaims (errs : List ClaimError)
deriving DecidableEq, Repr

/-- jwt/v5 `validator.Validate` for `RegisteredClaims` with default
options: collects `ErrTokenExpired` unless `now < exp` (when `exp` is
present) and `ErrTokenNotValidYet` unless `nbf ≤ now` (when `nbf` is
present); the `iat` check is disabled by default. -/
def validatorValidate (c : RegisteredClaims) (now : Int) : List ClaimError :=
  (match c.expiresAt with
   | some exp => if ¬ now < exp then [ClaimError.expired] else []
   | none => []) ++
  (match c.notBefore with
   | some nbf => if now < nbf then [ClaimError.notValidYet] else []
   | none => [])

/-- jwt/v5 `ParseWithClaims` with a key function that always returns
`[]byte(key)`: structural decoding, then signature verification, then
claim validation. -/
def jwtParseWithClaims (t : Token) (key : GoStr) (now : Int) :
    Except JWTError RegisteredClaims :=
  match t with
  | .malformed _ => .error .tokenMalformed
  | .hs256 c sig =>
    if sig ≠ hmacSHA256 key c then .error .signatureInvalid
    else
      match validatorValidate c now with
      | [] => .ok c
      | errs => .error (.invalidClaims errs)

/-- The errors `ValidateJWT` can return. -/
inductive AuthError where
  | jwt (e : JWTError)
  | invalidToken
  | tokenExpired
  | uuidErr (msg : String)
deriving DecidableEq, Repr

/-- Outcome of a Go function call that can also panic. -/
inductive GoResult (α : Type) where
  | ok (val : α)
  | err (e : AuthError)
  | panic (msg : String)
deriving DecidableEq, Repr

/-- `MakeJWT`. -/
def MakeJWT (userID : UUID) (tokenSecret : GoStr) (expiresIn : Int) (now : Int) :
    Token :=
  let claims : RegisteredClaims := {
    issuer := "chirpy".data
    subject := userID.toGoString
    expiresAt := some (now + expiresIn)
    notBefore := none
    issuedAt := some now }
  .hs256 claims (hmacSHA256 tokenSecret claims)

/-- `ValidateJWT`.  On a successfully parsed token, `token.Valid` is
`true` (see above), so the `!token.Valid` branch is never the one taken on
the `err == nil` path; the subsequent `claims.ExpiresAt.Time` dereferences
a nil pointer — a runtime panic — when the parsed token carries no `exp`
claim. -/
def ValidateJWT (tokenString : Token) (tokenSecret : GoStr) (now : Int) :
    GoResult UUID :=
  match jwtParseWithClaims tokenString tokenSecret now with
  | .error e => .err (.jwt e)
  | .ok claims =>
    match claims.expiresAt with
    | none => .panic "runtime error: invalid memory address or nil pointer dereference"
    | some exp =>
      if exp < now then .err .tokenExpired
      else
        match uuidParse claims.subject with
        | .error msg => .err (.uuidErr msg)
        | .ok userID => .ok userID

/-! ## `golang.org/x/crypto/bcrypt` and `HashPassword` / `CheckPasswordHash`

```go
func HashPassword(password string) (string, error) {
    hashBytes, err := bcrypt.GenerateFromPassword([]byte(password), 14)
    return string(hashBytes), err
}

func CheckPasswordHash(password, hash string) error {
    return bcrypt.CompareHashAndPassword([]byte(hash), []byte(password))
}
```

`bcrypt.GenerateFromPassword` rejects passwords longer than 72 bytes
(`ErrPasswordTooLong`; the spec's "password exceeds the algorithm's
byte-length limit"), draws a random 16-byte salt (here an explicit `salt`
parameter), and derives the digest with the blowfish-based key schedule.
That key schedule (`ExpandKey`/`expandKeyWithSalt`) reads exactly 18×4 =
72 key bytes, cycling through `password ++ [0]`, so the digest depends on
the password only through those 72 bytes (`bcryptEffKey`).
`bcrypt.CompareHashAndPassword` parses the stored hash (failing on a
string too short to be a bcrypt hash, e.g. the empty string), recomputes
the digest of the supplied password with the stored cost and salt — with
no length limit of its own — and compares.  The blowfish core itself is
modelled as an ideal primitive: digests of distinct
(cost, salt, effective key) triples never collide. -/

/-- The key material bcrypt's key schedule actually consumes: the first 72
bytes of the cyclic repetition of `password ++ [NUL]`. -/
def bcryptEffKey (password : GoStr) : GoStr :=
  let k := password ++ [Char.ofNat 0]
  (List.range 72).map (fun i => k.getD (i % k.length) ' ')

/-- A bcrypt digest as an ideal one-way function value: determined by (and
determining) the cost, the salt and the effective key material. -/
structure BcryptDigest where
  cost : Nat
  salt : Nat
  effKey : GoStr
deriving DecidableEq, Repr

/-- The digest bcrypt computes for a password under a given cost and salt. -/
def bcryptDigest (cost salt : Nat) (password : GoStr) : BcryptDigest :=
  ⟨cost, salt, bcryptEffKey password⟩

/-- A stored bcrypt hash string: the well-formed encoding of cost, salt
and digest produced by `GenerateFromPassword`, or any other string (such
as the empty string), which `CompareHashAndPassword` fails to parse. -/
inductive BcryptHash where
  | valid (cost : Nat) (salt : Nat) (digest : BcryptDigest)
  | invalid (raw : GoStr)
deriving DecidableEq, Repr

/-- `bcrypt.GenerateFromPassword`, with the salt drawn inside the call
made explicit.  A cost below `MinCost` (4) is replaced by `DefaultCost`
(10); a cost above `MaxCost` (31) is an error. -/
def generateFromPassword (salt : Nat) (password : GoStr) (cost : Nat) :
    Except String BcryptHash :=
  if password.length > 72 then
    .error "bcrypt: password length exceeds 72 bytes"
  else
    let cost := if cost < 4 then 10 else cost
    if cost > 31 then
      .error "crypto/bcrypt: cost outside allowed range (4,31)"
    else
      .ok (.valid cost salt (bcryptDigest cost salt password))

/-- `bcrypt.CompareHashAndPassword`: `none` means success (a nil error). -/
def compareHashAndPassword (hash : BcryptHash) (password : GoStr) :
    Option String :=
  match hash with
  | .invalid _ =>
    some "crypto/bcrypt: hashedSecret too short to be a bcrypted password"
  | .valid cost salt digest =>
    if bcryptDigest cost salt password = digest then none
    else some "crypto/bcrypt: hashedPassword is not the hash of the given password"

/-- `HashPassword`: returns both values of the Go pair — on error the hash
string is `string(nil)`, the empty (unparseable) string. -/
def HashPassword (salt : Nat) (password : GoStr) : BcryptHash × Option String :=
  match generateFromPassword salt password 14 with
  | .ok h => (h, none)
  | .error e => (.invalid [], some e)

/-- `CheckPasswordHash`: `none` means the password matches. -/
def CheckPasswordHash (password : GoStr) (hash : BcryptHash) : Option String :=
  compareHashAndPassword hash password

/-! ## Proofs -/

/-- Reading back a table entry: `xvalues` inverts `hextable`. -/
lemma xvalues_hextable : ∀ x : Fin 16, xvalues (hextable.getD x.val ' ') = x.val := by
  decide

/-- `xtob` inverts `hexPair` on bytes. -/
lemma xtob_hexPair (b : Nat) (hb : b < 256) :
    xtob (hextable.getD (b / 16) ' ') (hextable.getD (b % 16) ' ') = some b := by
  have h1 : b / 16 < 16 := Nat.div_lt_of_lt_mul (by omega)
  have h2 : b % 16 < 16 := Nat.mod_lt _ (by norm_num)
  have e1 := xvalues_hextable ⟨b / 16, h1⟩
  have e2 := xvalues_hextable ⟨b % 16, h2⟩
  simp only [xtob, e1, e2]
  have hb' : b / 16 * 16 + b % 16 = b := by omega
  rw [if_pos ⟨by omega, by omega⟩, hb']

/-- Round trip: parsing the canonical string form of a well-formed UUID
recovers the UUID. -/
lemma uuidParse_toGoString (u : UUID) (h : u.WF) :
    uuidParse u.toGoString = .ok u := by
  obtain ⟨b0, b1, b2, b3, b4, b5, b6, b7, b8, b9, b10, b11, b12, b13, b14, b15⟩ := u
  simp only [UUID.WF] at h
  obtain ⟨h0, h1, h2, h3, h4, h5, h6, h7, h8, h9, h10, h11, h12, h13, h14, h15⟩ := h
  simp only [UUID.toGoString, hexPair, List.cons_append, List.nil_append]
  rw [uuidParse]
  simp only [List.length_cons, List.length_nil, Nat.reduceAdd, reduceIte]
  rw [parseDashed]
  rw [if_pos ⟨rfl, rfl, rfl, rfl⟩]
  rw [xtob_hexPair b0 h0, xtob_hexPair b1 h1, xtob_hexPair b2 h2,
    xtob_hexPair b3 h3, xtob_hexPair b4 h4, xtob_hexPair b5 h5,
    xtob_hexPair b6 h6, xtob_hexPair b7 h7, xtob_hexPair b8 h8,
    xtob_hexPair b9 h9, xtob_hexPair b10 h10, xtob_hexPair b11 h11,
    xtob_hexPair b12 h12, xtob_hexPair b13 h13, xtob_hexPair b14 h14,
    xtob_hexPair b15 h15]

/-- Each byte contributes exactly two characters to the hex encoding. -/
lemma hexEncodeToString_length (bs : List Nat) :
    (hexEncodeToString bs).length = 2 * bs.length := by
  induction bs with
  | nil => rfl
  | cons b bs ih =>
    simp only [hexEncodeToString, List.map_cons, List.flatten_cons, List.length_append,
      List.length_cons, hexPair, List.length_nil] at *
    omega

/-- Entries of `hextable` read at an in-range index belong to `hextable`. -/
lemma hextable_getD_mem : ∀ i : Fin 16, hextable.getD i.val ' ' ∈ hextable := by
  decide

/-- Every character of a hex encoding of bytes is one of the sixteen
lower-case hex digits. -/
lemma hexEncodeToString_mem (bs : List Nat) (hb : ∀ b ∈ bs, b < 256) :
    ∀ c ∈ hexEncodeToString bs, c ∈ hextable := by
  intro c hc
  unfold hexEncodeToString at hc
  rw [List.mem_flatten] at hc
  obtain ⟨l, hl, hcl⟩ := hc
  rw [List.mem_map] at hl
  obtain ⟨b, hbmem, rfl⟩ := hl
  have hb256 : b < 256 := hb b hbmem
  have h1 : b / 16 < 16 := Nat.div_lt_of_lt_mul (by omega)
  have h2 : b % 16 < 16 := Nat.mod_lt _ (by norm_num)
  simp only [hexPair, List.mem_cons, List.not_mem_nil, or_false] at hcl
  rcases hcl with rfl | rfl
  · exact hextable_getD_mem ⟨b / 16, h1⟩
  · exact hextable_getD_mem ⟨b % 16, h2⟩

/-- C4: `GetBearerToken` returns the missing-header error on an empty
collection of `Authorization` values; returns the malformed-header error
when the first value does not begin with the exact prefix `"Bearer "`;
and otherwise returns the remainder of the first value after that prefix
unmodified, ignoring all values after the first. -/
theorem getBearerToken_spec :
    GetBearerToken [] = .error "missing authorization header" ∧
    (∀ (h : GoStr) (rest : List GoStr), h.take 7 ≠ "Bearer ".data →
      GetBearerToken (h :: rest) = .error "invalid authorization header") ∧
    (∀ (tok : GoStr) (rest : List GoStr),
      GetBearerToken (("Bearer ".data ++ tok) :: rest) = .ok tok) := by
  refine ⟨rfl, ?_, ?_⟩
  · intro h rest hne
    simp only [GetBearerToken]
    rw [if_pos (Or.inr hne)]
  · intro tok rest
    simp only [GetBearerToken]
    have h7 : ("Bearer ".data).length = 7 := rfl
    have htake : ("Bearer ".data ++ tok).take 7 = "Bearer ".data := by
      rw [← h7, List.take_left]
    have hdrop : ("Bearer ".data ++ tok).drop 7 = tok := by
      rw [← h7, List.drop_left]
    have hlen : ("Bearer ".data ++ tok).length = 7 + tok.length := by
      rw [List.length_append, h7]
    have hcond : ¬ (("Bearer ".data ++ tok).length < 7 ∨
        ("Bearer ".data ++ tok).take 7 ≠ "Bearer ".data) := by
      rw [htake, hlen]
      push_neg
      exact ⟨by omega, rfl⟩
    rw [if_neg hcond, hdrop]

/-- C4 witness: the spec's three examples, concretely. -/
theorem getBearerToken_spec_witness :
    GetBearerToken [] = .error "missing authorization header" ∧
    GetBearerToken ["Basic abc123".data] = .error "invalid authorization header" ∧
    GetBearerToken ["Bearer abc123".data] = .ok "abc123".data := by
  refine ⟨getBearerToken_spec.1,
    getBearerToken_spec.2.1 "Basic abc123".data [] (by decide), ?_⟩
  have e : "Bearer abc123".data = "Bearer ".data ++ "abc123".data := by decide
  rw [e]
  exact getBearerToken_spec.2.2 "abc123".data []

/-- C10: a first `Authorization` value that is exactly the seven
characters `"Bearer "` is accepted, and the extracted token is the empty
string. -/
theorem getBearerToken_empty_bearer (rest : List GoStr) :
    GetBearerToken ("Bearer ".data :: rest) = .ok [] := by
  simp only [GetBearerToken]
  rw [if_neg (by decide)]
  rfl

/-- C5: `MakeRefreshToken` propagates a `rand.Read` error, fails when the
read is short (never using the partially-filled buffer), and otherwise
returns the hex encoding of the 32 random bytes: exactly 64 characters,
all of them lower-case hex digits. -/
theorem makeRefreshToken_spec (r : RandRead) (hlen : r.bytes.length = 32)
    (hbytes : ∀ b ∈ r.bytes, b < 256) :
    (∀ e, r.err = some e → MakeRefreshToken r = .error e) ∧
    (r.err = none → r.n ≠ 32 → ∃ msg, MakeRefreshToken r = .error msg) ∧
    (r.err = none → r.n = 32 →
      MakeRefreshToken r = .ok (hexEncodeToString r.bytes) ∧
      (hexEncodeToString r.bytes).length = 64 ∧
      ∀ c ∈ hexEncodeToString r.bytes, c ∈ hextable) := by
  refine ⟨?_, ?_, ?_⟩
  · intro e he
    unfold MakeRefreshToken
    rw [he]
  · intro he hn
    unfold MakeRefreshToken
    rw [he]
    exact ⟨_, by rw [if_pos hn]⟩
  · intro he hn
    unfold MakeRefreshToken
    rw [he, if_neg (by omega)]
    refine ⟨rfl, ?_, hexEncodeToString_mem r.bytes hbytes⟩
    rw [hexEncodeToString_length, hlen]

/-- C5 witness: a full 32-byte read produces a 64-character lower-case hex
string. -/
theorem makeRefreshToken_spec_witness :
    (List.replicate 32 0).length = 32 ∧
    MakeRefreshToken ⟨List.replicate 32 0, 32, none⟩ =
      .ok (hexEncodeToString (List.replicate 32 0)) ∧
    (hexEncodeToString (List.replicate 32 0)).length = 64 := by
  have h := makeRefreshToken_spec ⟨List.replicate 32 0, 32, none⟩
    (by decide) (by decide)
  have h3 := h.2.2 rfl rfl
  exact ⟨by decide, h3.1, h3.2.1⟩

/-- C6 counterexample: the round-trip claim fails as stated.  For the
73-byte password `aaa…a` the hash step fails (`ErrPasswordTooLong`) and
verification against the returned empty hash string errors, so
`CheckPasswordHash(P, HashPassword(P))` does not succeed for every `P`;
and for the distinct pair P1 = 72 × `a`, P2 = 73 × `a` verification
`CheckPasswordHash(P2, HashPassword(P1))` succeeds, because bcrypt's key
schedule consumes only the first 72 bytes of the password. -/
theorem passwordHash_counterexample :
    (CheckPasswordHash (List.replicate 73 'a')
      (HashPassword 0 (List.replicate 73 'a')).1).isSome = true ∧
    List.replicate 72 'a' ≠ List.replicate 73 'a' ∧
    CheckPasswordHash (List.replicate 73 'a')
      (HashPassword 0 (List.replicate 72 'a')).1 = none := by
  decide

/-- C6 (amended): for every password of at most 72 bytes the round trip
`CheckPasswordHash(P, HashPassword(P))` succeeds; and
`CheckPasswordHash(P2, HashPassword(P1))` fails whenever the bcrypt key
material of P1 and P2 differs (the first 72 bytes of the cyclic
repetition of password-plus-NUL), in particular for any P1 ≠ P2 of at
most 72 bytes that are not cyclic-padding equivalent. -/
theorem passwordHash_roundtrip_amended (salt : Nat) :
    (∀ P : GoStr, P.length ≤ 72 →
      CheckPasswordHash P (HashPassword salt P).1 = none) ∧
    (∀ P1 P2 : GoStr, bcryptEffKey P1 ≠ bcryptEffKey P2 →
      (CheckPasswordHash P2 (HashPassword salt P1).1).isSome = true) := by
  constructor
  · intro P hP
    have h1 : ¬ P.length > 72 := by omega
    simp [HashPassword, generateFromPassword, if_neg h1,
      CheckPasswordHash, compareHashAndPassword]
  · intro P1 P2 hne
    by_cases h1 : P1.length > 72
    · simp [HashPassword, generateFromPassword, if_pos h1,
        CheckPasswordHash, compareHashAndPassword]
    · simp [HashPassword, generateFromPassword, if_neg h1,
        CheckPasswordHash, compareHashAndPassword, bcryptDigest]
      intro h
      exact absurd h.symm hne

/-- C6 amended witness: a concrete short password round-trips, and a
concrete pair with different key material fails to verify. -/
theorem passwordHash_roundtrip_amended_witness :
    "hunter2".data.length ≤ 72 ∧
    CheckPasswordHash "hunter2".data (HashPassword 0 "hunter2".data).1 = none ∧
    bcryptEffKey "a".data ≠ bcryptEffKey "b".data ∧
    (CheckPasswordHash "b".data (HashPassword 0 "a".data).1).isSome = true :=
  ⟨by decide, (passwordHash_roundtrip_amended 0).1 "hunter2".data (by decide),
   by decide, (passwordHash_roundtrip_amended 0).2 "a".data "b".data (by decide)⟩

/-- C1: validating a token made by `MakeJWT` with the same secret, before
the lifetime has elapsed, returns exactly the subject UUID. -/
theorem makeJWT_validateJWT_roundtrip (S : UUID) (hS : S.WF) (K : GoStr)
    (L t0 t : Int) (hL : 0 < L) (ht : t < t0 + L) :
    ValidateJWT (MakeJWT S K L t0) K t = .ok S := by
  have hexp : ¬ (t0 + L < t) := by omega
  simp [ValidateJWT, MakeJWT, jwtParseWithClaims, validatorValidate, ht, hexp,
    uuidParse_toGoString S hS]

/-- C1 witness: a concrete round trip inside the lifetime. -/
theorem makeJWT_validateJWT_roundtrip_witness :
    (⟨0, 1, 2, 3, 4, 5, 6, 7, 8, 9, 10, 11, 12, 13, 14, 15⟩ : UUID).WF ∧
    (0 : Int) < 3600 ∧ (10 : Int) < 0 + 3600 ∧
    ValidateJWT
      (MakeJWT ⟨0, 1, 2, 3, 4, 5, 6, 7, 8, 9, 10, 11, 12, 13, 14, 15⟩
        "secret".data 3600 0) "secret".data 10 =
      .ok ⟨0, 1, 2, 3, 4, 5, 6, 7, 8, 9, 10, 11, 12, 13, 14, 15⟩ :=
  ⟨by decide, by decide, by decide,
   makeJWT_validateJWT_roundtrip _ (by decide) _ _ _ _ (by decide) (by decide)⟩

/-- C2: a correctly signed token whose `exp` claim is at or before the
current time is rejected with an expiry error (the jwt/v5 validator
collects `ErrTokenExpired` exactly when the current time is not strictly
before `exp`, so `exp = now` is already expired). -/
theorem validateJWT_expired_at_or_after (c : RegisteredClaims) (K : GoStr)
    (e now : Int) (hexp : c.expiresAt = some e) (h : e ≤ now) :
    ∃ errs, ValidateJWT (.hs256 c (hmacSHA256 K c)) K now =
      .err (.jwt (.invalidClaims errs)) ∧ ClaimError.expired ∈ errs := by
  have hv : validatorValidate c now =
      ClaimError.expired ::
        (match c.notBefore with
         | some nbf => if now < nbf then [ClaimError.notValidYet] else []
         | none => []) := by
    unfold validatorValidate
    rw [hexp]
    show ((if ¬ now < e then [ClaimError.expired] else []) ++
        (match c.notBefore with
         | some nbf => if now < nbf then [ClaimError.notValidYet] else []
         | none => [])) =
      ClaimError.expired ::
        (match c.notBefore with
         | some nbf => if now < nbf then [ClaimError.notValidYet] else []
         | none => [])
    rw [if_pos (show ¬ now < e by omega)]
    rfl
  refine ⟨ClaimError.expired ::
      (match c.notBefore with
       | some nbf => if now < nbf then [ClaimError.notValidYet] else []
       | none => []), ?_, List.mem_cons_self _ _⟩
  simp [ValidateJWT, jwtParseWithClaims, hv]

/-- C2 witness: a token whose `exp` equals the current instant is already
rejected as expired. -/
theorem validateJWT_expired_at_or_after_witness :
    (⟨"chirpy".data, [], some 5, none, none⟩ : RegisteredClaims).expiresAt = some 5 ∧
    (5 : Int) ≤ 5 ∧
    ∃ errs, ValidateJWT
      (.hs256 ⟨"chirpy".data, [], some 5, none, none⟩
        (hmacSHA256 "secret".data ⟨"chirpy".data, [], some 5, none, none⟩))
      "secret".data 5 = .err (.jwt (.invalidClaims errs)) ∧
      ClaimError.expired ∈ errs :=
  ⟨rfl, by decide,
   validateJWT_expired_at_or_after ⟨"chirpy".data, [], some 5, none, none⟩
     "secret".data 5 5 rfl (by decide)⟩

/-- C3: a token issued under one secret never validates under a different
secret — the signature check fails and `ValidateJWT` returns an error,
never a subject. -/
theorem validateJWT_wrong_secret (S : UUID) (K1 K2 : GoStr) (L t0 t : Int)
    (hL : 0 < L) (hK : K1 ≠ K2) :
    ValidateJWT (MakeJWT S K1 L t0) K2 t = .err (.jwt .signatureInvalid) := by
  simp [ValidateJWT, MakeJWT, jwtParseWithClaims, hmacSHA256, hK]

/-- C3 witness: concrete distinct secrets. -/
theorem validateJWT_wrong_secret_witness :
    (0 : Int) < 3600 ∧ "k1".data ≠ "k2".data ∧
    ValidateJWT
      (MakeJWT ⟨0, 1, 2, 3, 4, 5, 6, 7, 8, 9, 10, 11, 12, 13, 14, 15⟩
        "k1".data 3600 0) "k2".data 10 = .err (.jwt .signatureInvalid) :=
  ⟨by decide, by decide,
   validateJWT_wrong_secret _ _ _ _ _ _ (by decide) (by decide)⟩

/-- Inversion: a successful parse means the token is a structurally
well-formed HS256 token carrying exactly the returned claims. -/
lemma jwtParse_ok_inv (t : Token) (K : GoStr) (now : Int)
    (c : RegisteredClaims) (h : jwtParseWithClaims t K now = .ok c) :
    ∃ sig, t = .hs256 c sig := by
  cases t with
  | malformed raw => simp [jwtParseWithClaims] at h
  | hs256 c' sig =>
    refine ⟨sig, ?_⟩
    simp only [jwtParseWithClaims] at h
    by_cases hsig : sig ≠ hmacSHA256 K c'
    · rw [if_pos hsig] at h; cases h
    · rw [if_neg hsig] at h
      cases hv : validatorValidate c' now with
      | nil => rw [hv] at h; simp at h; rw [h]
      | cons a as => rw [hv] at h; simp at h

/-- Inversion: a successful validation means the token is a structurally
well-formed HS256 token whose subject claim parses to the returned UUID. -/
lemma validateJWT_ok_inv (t : Token) (K : GoStr) (now : Int) (u : UUID)
    (h : ValidateJWT t K now = .ok u) :
    ∃ c sig, t = .hs256 c sig ∧ uuidParse c.subject = .ok u := by
  cases hp : jwtParseWithClaims t K now with
  | error e =>
    unfold ValidateJWT at h
    rw [hp] at h
    simp at h
  | ok claims =>
    obtain ⟨sig, rfl⟩ := jwtParse_ok_inv t K now claims hp
    refine ⟨claims, sig, rfl, ?_⟩
    unfold ValidateJWT at h
    rw [hp] at h
    replace h :
        (match claims.expiresAt with
         | none =>
           GoResult.panic "runtime error: invalid memory address or nil pointer dereference"
         | some exp =>
           if exp < now then GoResult.err AuthError.tokenExpired
           else
             match uuidParse claims.subject with
             | .error msg => GoResult.err (.uuidErr msg)
             | .ok userID => GoResult.ok userID) = GoResult.ok u := h
    cases hexp : claims.expiresAt with
    | none => rw [hexp] at h; simp at h
    | some e =>
      rw [hexp] at h
      replace h :
          (if e < now then GoResult.err AuthError.tokenExpired
           else
             match uuidParse claims.subject with
             | .error msg => GoResult.err (.uuidErr msg)
             | .ok userID => GoResult.ok userID) = GoResult.ok u := h
      by_cases hlt : e < now
      · rw [if_pos hlt] at h; cases h
      · rw [if_neg hlt] at h
        cases hu : uuidParse claims.subject with
        | error msg => rw [hu] at h; simp at h
        | ok u' => rw [hu] at h; simp at h; subst h; rfl

/-- C7: the signer only embeds the string form of a UUID as subject (and
that string parses back to the same UUID), and validation succeeds only
when the token's subject claim parses as a UUID — any token `ValidateJWT`
accepts carries a parseable subject. -/
theorem jwt_subject_wellformed :
    (∀ (S : UUID) (K : GoStr) (L t0 : Int), S.WF →
      ∃ c sig, MakeJWT S K L t0 = .hs256 c sig ∧
        c.subject = S.toGoString ∧ uuidParse c.subject = .ok S) ∧
    (∀ (t : Token) (K : GoStr) (now : Int) (u : UUID),
      ValidateJWT t K now = .ok u →
      ∃ c sig, t = .hs256 c sig ∧ uuidParse c.subject = .ok u) := by
  constructor
  · intro S K L t0 hS
    exact ⟨_, _, rfl, rfl, uuidParse_toGoString S hS⟩
  · intro t K now u hok
    exact validateJWT_ok_inv t K now u hok

/-- C7 witness: a concretely issued token has a parseable subject, and a
concretely accepted token's subject parses to the returned UUID. -/
theorem jwt_subject_wellformed_witness :
    (∃ c sig,
      MakeJWT ⟨0, 1, 2, 3, 4, 5, 6, 7, 8, 9, 10, 11, 12, 13, 14, 15⟩
        "k".data 3600 0 = .hs256 c sig ∧
      c.subject =
        (⟨0, 1, 2, 3, 4, 5, 6, 7, 8, 9, 10, 11, 12, 13, 14, 15⟩ : UUID).toGoString ∧
      uuidParse c.subject = .ok ⟨0, 1, 2, 3, 4, 5, 6, 7, 8, 9, 10, 11, 12, 13, 14, 15⟩) ∧
    (∃ c sig,
      MakeJWT ⟨0, 1, 2, 3, 4, 5, 6, 7, 8, 9, 10, 11, 12, 13, 14, 15⟩
        "k".data 3600 0 = .hs256 c sig ∧
      uuidParse c.subject = .ok ⟨0, 1, 2, 3, 4, 5, 6, 7, 8, 9, 10, 11, 12, 13, 14, 15⟩) :=
  ⟨jwt_subject_wellformed.1 _ "k".data 3600 0 (by decide),
   jwt_subject_wellformed.2
     (MakeJWT ⟨0, 1, 2, 3, 4, 5, 6, 7, 8, 9, 10, 11, 12, 13, 14, 15⟩ "k".data 3600 0)
     "k".data 10 _ (by decide)⟩

/-- C8: `MakeJWT` builds a claim set with subject the stringified UUID,
issued-at the current instant, expires-at the current instant plus the
lifetime, issuer the fixed label `"chirpy"`, and signs it with the secret
under the (ideal) HMAC-SHA256 MAC. -/
theorem makeJWT_builds_claims (S : UUID) (K : GoStr) (L t0 : Int) :
    ∃ c sig, MakeJWT S K L t0 = .hs256 c sig ∧
      c.subject = S.toGoString ∧
      c.issuedAt = some t0 ∧
      c.expiresAt = some (t0 + L) ∧
      c.issuer = "chirpy".data ∧
      c.notBefore = none ∧
      sig = hmacSHA256 K c :=
  ⟨_, _, rfl, rfl, rfl, rfl, rfl, rfl, rfl⟩

/-- C9: the claim that `ValidateJWT` is total fails on the code — a token
correctly signed with the given secret but carrying no `exp` claim passes
the jwt/v5 default validation (`exp` is optional), after which the
post-parse check dereferences the nil `claims.ExpiresAt` and panics. -/
theorem validateJWT_nil_expiry_panics :
    ValidateJWT
      (Token.hs256 ⟨"chirpy".data, [], none, none, none⟩
        (hmacSHA256 "secret".data ⟨"chirpy".data, [], none, none, none⟩))
      "secret".data 0 =
      .panic "runtime error: invalid memory address or nil pointer dereference" := by
  decide

end LearnGoHttpServer
